import Mathlib

/-!
Shallow embedding of `src/internal/model/chatlab.go` (package `model`):
the `ConvertToChatLab` conversion from the internal chat-message
representation to the ChatLab export envelope.

Modelling conventions:
  * `time.Now().Unix()` is modelled by an explicit `now : Int` parameter.
  * Go's `interface{}` content-attribute values only matter through the
    type assertion `.(string)`, so an attribute value is either a string
    or a non-string; the `Contents` map is an association list.
  * Go's byte-level suffix test `talkerID[len(talkerID)-9:] == "@chatroom"`
    is modelled on the character list: since `"@chatroom"` is pure ASCII
    and UTF-8 is self-synchronizing, the last 9 bytes equal `"@chatroom"`
    (with byte length > 9) iff the last 9 characters do (with char
    length > 9).
  * Go's `for _, m := range memberMap` iterates a hash map in an
    unspecified order; the function `convertToChatLab` fixes insertion
    order as a canonical drain order, and the relation `ChatLabRun`
    captures every output the Go program may produce (any permutation of
    the member roster).
-/

namespace Chatlog

/-- A content-attribute value: Go `interface{}` seen through the type
assertion `.(string)` — either a string, or anything else. -/
inductive AttrVal where
  | str (s : String)
  | nonstr
deriving DecidableEq

/-- The open-ended content-attribute mapping `msg.Contents`. -/
abbrev Contents := List (String × AttrVal)

/-- Go `msg.Contents[k].(string)`: `some s` iff key `k` is present and its
value is the string `s` (absent key or non-string value both fail). -/
def getStrAttr (c : Contents) (k : String) : Option String :=
  match c.lookup k with
  | some (AttrVal.str s) => some s
  | _ => none

/-- Modelled from the spec: the primary type codes of the internal
`Message` (the constant declarations live outside `src/`); only their
pairwise distinctness matters, plus an open-ended remainder of
unrecognized codes (`unknown`). -/
inductive MessageType where
  | text | image | voice | video | animation | location | card | voip
  | system | share
  | unknown (code : Nat)
deriving DecidableEq

/-- Modelled from the spec: the sub-type codes of the internal `Message`
(declared outside `src/`); pairwise distinct, with an open-ended
remainder of unrecognized codes. -/
inductive MessageSubType where
  | file | link | link2 | mergeForward | note | chatRoomNotice
  | miniProgram | miniProgram2 | quote | pat | music | pay
  | redEnvelope | redEnvelopeCover
  | unknown (code : Nat)
deriving DecidableEq

/-- Modelled from the spec: the internal source `Message` record
(declared outside `src/`), with exactly the fields `ConvertToChatLab`
reads. `Time` is already the epoch-second value (`msg.Time.Unix()`). -/
structure Message where
  Sender : String
  SenderName : String
  IsSelf : Bool
  Time : Int
  «Type» : MessageType
  SubType : MessageSubType
  Content : String
  Contents : Contents
deriving DecidableEq

-- ChatLab format constants
def ChatLabTypeText : Nat := 0
def ChatLabTypeImage : Nat := 1
def ChatLabTypeVoice : Nat := 2
def ChatLabTypeVideo : Nat := 3
def ChatLabTypeFile : Nat := 4
def ChatLabTypeEmoji : Nat := 5
def ChatLabTypeLink : Nat := 7
def ChatLabTypeLocation : Nat := 8
def ChatLabTypeRedPacket : Nat := 20
def ChatLabTypeTransfer : Nat := 21
def ChatLabTypePoke : Nat := 22
def ChatLabTypeCall : Nat := 23
def ChatLabTypeShare : Nat := 24
def ChatLabTypeReply : Nat := 25
def ChatLabTypeForward : Nat := 26
def ChatLabTypeContact : Nat := 27
def ChatLabTypeSystem : Nat := 80
def ChatLabTypeRecall : Nat := 81
def ChatLabTypeOther : Nat := 99

structure ChatLabHeader where
  Version : String
  ExportedAt : Int
  Generator : String
  Description : String
deriving DecidableEq

structure ChatLabMeta where
  Name : String
  Platform : String
  «Type» : String
  GroupID : String
  GroupAvatar : String
deriving DecidableEq

structure ChatLabMember where
  PlatformID : String
  AccountName : String
  GroupNickname : String
  Aliases : List String
  Avatar : String
deriving DecidableEq

structure ChatLabMessage where
  Sender : String
  AccountName : String
  GroupNickname : String
  Timestamp : Int
  «Type» : Nat
  Content : String
deriving DecidableEq

set_option linter.dupNamespace false

structure ChatLab where
  «ChatLab» : ChatLabHeader
  Meta : ChatLabMeta
  Members : List ChatLabMember
  Messages : List ChatLabMessage
deriving DecidableEq

/-- The group test of `ConvertToChatLab`:
`len(talkerID) > 9 && talkerID[len(talkerID)-9:] == "@chatroom"`,
on the character list (see the ASCII remark in the file header). -/
def inferIsGroup (talkerID : String) : Bool :=
  decide (talkerID.data.length > 9) &&
    talkerID.data.drop (talkerID.data.length - 9) == "@chatroom".data

/-- The `switch msg.Type` of `ConvertToChatLab` (lines 104–195): refine
content and type into `(clType, content)`. -/
def extractTypeContent (msg : Message) : Nat × String :=
  match msg.Type with
  | MessageType.text => (ChatLabTypeText, msg.Content)
  | MessageType.image =>
      (ChatLabTypeImage,
        match getStrAttr msg.Contents "path" with
        | some path => path
        | none =>
          match getStrAttr msg.Contents "md5" with
          | some md5 => md5
          | none => "[图片]")
  | MessageType.voice => (ChatLabTypeVoice, "[语音]")
  | MessageType.video => (ChatLabTypeVideo, "[视频]")
  | MessageType.animation =>
      (ChatLabTypeEmoji,
        match getStrAttr msg.Contents "cdnurl" with
        | some cdnURL => cdnURL
        | none => "[表情]")
  | MessageType.location =>
      let label := (getStrAttr msg.Contents "label").getD ""
      (ChatLabTypeLocation, if label != "" then label else "[位置]")
  | MessageType.card => (ChatLabTypeContact, "[名片]")
  | MessageType.voip => (ChatLabTypeCall, "[通话]")
  | MessageType.system => (ChatLabTypeSystem, msg.Content)
  | MessageType.share =>
      match msg.SubType with
      | MessageSubType.file =>
          (ChatLabTypeFile, (getStrAttr msg.Contents "title").getD msg.Content)
      | MessageSubType.link =>
          (ChatLabTypeLink, (getStrAttr msg.Contents "url").getD msg.Content)
      | MessageSubType.link2 =>
          (ChatLabTypeLink, (getStrAttr msg.Contents "url").getD msg.Content)
      | MessageSubType.mergeForward =>
          (ChatLabTypeForward, (getStrAttr msg.Contents "title").getD msg.Content)
      | MessageSubType.note =>
          (ChatLabTypeForward, (getStrAttr msg.Contents "title").getD msg.Content)
      | MessageSubType.chatRoomNotice =>
          (ChatLabTypeForward, (getStrAttr msg.Contents "title").getD msg.Content)
      | MessageSubType.miniProgram =>
          (ChatLabTypeShare, (getStrAttr msg.Contents "title").getD msg.Content)
      | MessageSubType.miniProgram2 =>
          (ChatLabTypeShare, (getStrAttr msg.Contents "title").getD msg.Content)
      | MessageSubType.quote => (ChatLabTypeReply, msg.Content)
      | MessageSubType.pat => (ChatLabTypePoke, msg.Content)
      | MessageSubType.music =>
          (ChatLabTypeShare, (getStrAttr msg.Contents "url").getD msg.Content)
      | MessageSubType.pay => (ChatLabTypeTransfer, msg.Content)
      | MessageSubType.redEnvelope => (ChatLabTypeRedPacket, "[红包]")
      | MessageSubType.redEnvelopeCover => (ChatLabTypeRedPacket, "[红包]")
      | MessageSubType.unknown _ => (ChatLabTypeShare, msg.Content)
  | MessageType.unknown _ => (ChatLabTypeOther, msg.Content)

/-- "Handle Self Name" (lines 198–201). -/
def resolveSenderName (msg : Message) : String :=
  if msg.IsSelf && msg.SenderName == "" then "我" else msg.SenderName

/-- The `ChatLabMessage` built for one source message (lines 203–219). -/
def mkChatLabMessage (isGroup : Bool) (msg : Message) : ChatLabMessage :=
  let tc := extractTypeContent msg
  let senderName := resolveSenderName msg
  { Sender := msg.Sender
    AccountName := senderName
    GroupNickname := if isGroup then senderName else ""
    Timestamp := msg.Time
    «Type» := tc.1
    Content := tc.2 }

/-- The `ChatLabMember` recorded for a first-seen sender (lines 224–233). -/
def mkMember (isGroup : Bool) (msg : Message) : ChatLabMember :=
  let senderName := resolveSenderName msg
  { PlatformID := msg.Sender
    AccountName := senderName
    GroupNickname := if isGroup then senderName else ""
    Aliases := []
    Avatar := "" }

/-- The `for _, msg := range messages` loop (lines 102–234): accumulates
the export message list and the member map (as an insertion-ordered
association list keyed by `PlatformID`). -/
def convertLoop (isGroup : Bool) (msgs : List Message)
    (msgAcc : List ChatLabMessage) (memAcc : List ChatLabMember) :
    List ChatLabMessage × List ChatLabMember :=
  match msgs with
  | [] => (msgAcc, memAcc)
  | msg :: rest =>
      let memAcc' :=
        if memAcc.any (fun m => m.PlatformID == msg.Sender) then memAcc
        else memAcc ++ [mkMember isGroup msg]
      convertLoop isGroup rest (msgAcc ++ [mkChatLabMessage isGroup msg]) memAcc'

/-- `ConvertToChatLab` (lines 72–241), with `time.Now().Unix()` passed in
as `now` and the member map drained in insertion order (the canonical
representative; `ChatLabRun` below adds Go's arbitrary drain order). -/
def convertToChatLab (now : Int) (messages : List Message)
    (talkerID talkerName : String) : ChatLab :=
  let isGroup := inferIsGroup talkerID
  let res := convertLoop isGroup messages [] []
  { «ChatLab» :=
      { Version := "0.0.1"
        ExportedAt := now
        Generator := "Chatlog"
        Description := "" }
    Meta :=
      { Name := if talkerName == "" then talkerID else talkerName
        Platform := "wechat"
        «Type» := if isGroup then "group" else "private"
        GroupID := if isGroup then talkerID else ""
        GroupAvatar := "" }
    Members := res.2
    Messages := res.1 }

/-- Specification helper: the sublist of messages that are the first
occurrence of their sender (`seen` = senders already recorded); the loop's
member map records exactly these, in this order. -/
def firstOccurAux (seen : List String) : List Message → List Message
  | [] => []
  | m :: rest =>
      if m.Sender ∈ seen then firstOccurAux seen rest
      else m :: firstOccurAux (seen ++ [m.Sender]) rest

/-- The observable outputs of one run of the Go `ConvertToChatLab`: the
header, metadata and message list are determined, while the member
roster is drained from a hash map in an unspecified iteration order, so
any permutation of the canonical roster may be produced. -/
def ChatLabRun (now : Int) (messages : List Message)
    (talkerID talkerName : String) (r : ChatLab) : Prop :=
  r.ChatLab = (convertToChatLab now messages talkerID talkerName).ChatLab ∧
  r.Meta = (convertToChatLab now messages talkerID talkerName).Meta ∧
  r.Messages = (convertToChatLab now messages talkerID talkerName).Messages ∧
  List.Perm r.Members (convertToChatLab now messages talkerID talkerName).Members

/-! Concrete inputs used as witnesses and counterexamples. -/

/-- An image message carrying a `path` attribute. -/
def exImgPath : Message :=
  { Sender := "wxid_a", SenderName := "A", IsSelf := false, Time := 5
    «Type» := MessageType.image, SubType := MessageSubType.unknown 0
    Content := "orig", Contents := [("path", AttrVal.str "/tmp/a.jpg")] }

/-- An image message with no `path` and no `md5` attribute (only a
non-string `path`, exercising the failing type assertion). -/
def exImgBare : Message :=
  { Sender := "wxid_a", SenderName := "A", IsSelf := false, Time := 5
    «Type» := MessageType.image, SubType := MessageSubType.unknown 0
    Content := "orig", Contents := [("path", AttrVal.nonstr)] }

/-- A share message with sub-type link and a `url` attribute. -/
def exShareLink : Message :=
  { Sender := "wxid_a", SenderName := "A", IsSelf := false, Time := 5
    «Type» := MessageType.share, SubType := MessageSubType.link
    Content := "", Contents := [("url", AttrVal.str "https://x.test")] }

/-- A share message with an unrecognized sub-type code. -/
def exShareUnknown : Message :=
  { Sender := "wxid_a", SenderName := "A", IsSelf := false, Time := 5
    «Type» := MessageType.share, SubType := MessageSubType.unknown 77
    Content := "body", Contents := [] }

/-- A message with an unrecognized primary type code. -/
def exUnknownType : Message :=
  { Sender := "wxid_a", SenderName := "A", IsSelf := false, Time := 5
    «Type» := MessageType.unknown 1234, SubType := MessageSubType.unknown 0
    Content := "raw", Contents := [] }

/-- A named, non-self text message from sender `"w"`. -/
def exTextNamed : Message :=
  { Sender := "w", SenderName := "Alice", IsSelf := true, Time := 0
    «Type» := MessageType.text, SubType := MessageSubType.unknown 0
    Content := "hi", Contents := [] }

/-- A later self-authored text message from the same sender `"w"`,
with an empty display name. -/
def exTextSelfEmpty : Message :=
  { Sender := "w", SenderName := "", IsSelf := true, Time := 1
    «Type» := MessageType.text, SubType := MessageSubType.unknown 0
    Content := "yo", Contents := [] }

/-- Two text messages from two distinct senders. -/
def exTwoSenders : List Message :=
  [{ Sender := "a", SenderName := "A", IsSelf := false, Time := 0
     «Type» := MessageType.text, SubType := MessageSubType.unknown 0
     Content := "1", Contents := [] },
   { Sender := "b", SenderName := "B", IsSelf := false, Time := 1
     «Type» := MessageType.text, SubType := MessageSubType.unknown 0
     Content := "2", Contents := [] }]

/-- The canonical conversion of `exTwoSenders` with its member roster
drained in the reverse iteration order — an equally possible output of
the Go hash-map `range`. -/
def exTwoSendersAlt : ChatLab :=
  { convertToChatLab 0 exTwoSenders "t" "n" with
    Members := (convertToChatLab 0 exTwoSenders "t" "n").Members.reverse }

/-! Helper lemmas about the loop. -/

theorem mkMember_PlatformID (g : Bool) (msg : Message) :
    (mkMember g msg).PlatformID = msg.Sender := rfl

theorem any_platformID_eq (memAcc : List ChatLabMember) (s : String) :
    (memAcc.any (fun m => m.PlatformID == s) = true) ↔
      s ∈ memAcc.map (fun m => m.PlatformID) := by
  simp [List.any_eq_true, List.mem_map, beq_iff_eq]

theorem convertLoop_fst (g : Bool) (msgs : List Message) :
    ∀ msgAcc memAcc, (convertLoop g msgs msgAcc memAcc).1 =
      msgAcc ++ msgs.map (mkChatLabMessage g) := by
  induction msgs with
  | nil => intro a b; simp [convertLoop]
  | cons msg rest ih =>
      intro a b
      simp only [convertLoop]
      rw [ih]
      simp

theorem convertLoop_snd (g : Bool) (msgs : List Message) :
    ∀ memAcc msgAcc, (convertLoop g msgs msgAcc memAcc).2 =
      memAcc ++ (firstOccurAux (memAcc.map (fun m => m.PlatformID)) msgs).map (mkMember g) := by
  induction msgs with
  | nil => intro a b; simp [convertLoop, firstOccurAux]
  | cons msg rest ih =>
      intro memAcc msgAcc
      by_cases h : msg.Sender ∈ memAcc.map (fun m => m.PlatformID)
      · have hb : memAcc.any (fun m => m.PlatformID == msg.Sender) = true :=
          (any_platformID_eq _ _).mpr h
        simp only [convertLoop, hb, if_true]
        rw [ih]
        simp [firstOccurAux, h]
      · have hb : memAcc.any (fun m => m.PlatformID == msg.Sender) = false := by
          rcases Bool.eq_false_or_eq_true (memAcc.any (fun m => m.PlatformID == msg.Sender)) with ht | hf
          · exact absurd ((any_platformID_eq _ _).mp ht) h
          · exact hf
        simp only [convertLoop, hb, Bool.false_eq_true, if_false]
        rw [ih]
        have hmap : (memAcc ++ [mkMember g msg]).map (fun m => m.PlatformID) =
            memAcc.map (fun m => m.PlatformID) ++ [msg.Sender] := by
          simp [mkMember_PlatformID]
        rw [hmap]
        simp only [firstOccurAux, if_neg h, List.map_cons, List.append_assoc,
          List.singleton_append]

theorem mem_sender_firstOccurAux (msgs : List Message) :
    ∀ seen s, s ∈ (firstOccurAux seen msgs).map (fun m => m.Sender) ↔
      (s ∈ msgs.map (fun m => m.Sender) ∧ s ∉ seen) := by
  induction msgs with
  | nil => intro seen s; simp [firstOccurAux]
  | cons m rest ih =>
      intro seen s
      by_cases h : m.Sender ∈ seen
      · simp only [firstOccurAux, if_pos h, ih, List.map_cons, List.mem_cons]
        constructor
        · rintro ⟨hs, hn⟩; exact ⟨Or.inr hs, hn⟩
        · rintro ⟨hor, hn⟩
          cases hor with
          | inl he => exact absurd (he ▸ h) hn
          | inr hs => exact ⟨hs, hn⟩
      · simp only [firstOccurAux, if_neg h, List.map_cons, List.mem_cons, ih,
          List.mem_append, List.mem_singleton]
        by_cases hs : s = m.Sender
        · subst hs; simp [h]
        · simp only [hs, false_or, or_false, not_or]
          simp

theorem nodup_sender_firstOccurAux (msgs : List Message) :
    ∀ seen, ((firstOccurAux seen msgs).map (fun m => m.Sender)).Nodup := by
  induction msgs with
  | nil => intro seen; simp [firstOccurAux]
  | cons m rest ih =>
      intro seen
      by_cases h : m.Sender ∈ seen
      · simpa only [firstOccurAux, if_pos h] using ih seen
      · simp only [firstOccurAux, if_neg h, List.map_cons, List.nodup_cons]
        refine ⟨fun hmem => ?_, ih _⟩
        have := (mem_sender_firstOccurAux rest (seen ++ [m.Sender]) m.Sender).mp hmem
        exact this.2 (by simp)

theorem find?_firstOccurAux (msgs : List Message) :
    ∀ seen m, m ∈ firstOccurAux seen msgs →
      msgs.find? (fun x => x.Sender == m.Sender) = some m := by
  induction msgs with
  | nil => intro seen m hm; simp [firstOccurAux] at hm
  | cons x rest ih =>
      intro seen m hm
      by_cases h : x.Sender ∈ seen
      · simp only [firstOccurAux, if_pos h] at hm
        have hne : m.Sender ≠ x.Sender := by
          have hmem : m.Sender ∈ (firstOccurAux seen rest).map (fun mm => mm.Sender) :=
            List.mem_map_of_mem _ hm
          have hprop := (mem_sender_firstOccurAux rest seen m.Sender).mp hmem
          intro he; exact hprop.2 (he ▸ h)
        rw [List.find?_cons_of_neg, ih seen m hm]
        simp [beq_iff_eq]
        exact fun he => hne he.symm
      · simp only [firstOccurAux, if_neg h, List.mem_cons] at hm
        cases hm with
        | inl he =>
            subst he
            rw [List.find?_cons_of_pos]
            simp
        | inr hm2 =>
            have hne : m.Sender ≠ x.Sender := by
              have hmem : m.Sender ∈ (firstOccurAux (seen ++ [x.Sender]) rest).map
                  (fun mm => mm.Sender) := List.mem_map_of_mem _ hm2
              have hprop := (mem_sender_firstOccurAux rest (seen ++ [x.Sender]) m.Sender).mp hmem
              intro he; exact hprop.2 (by simp [he])
            rw [List.find?_cons_of_neg, ih _ m hm2]
            simp [beq_iff_eq]
            exact fun he => hne he.symm

theorem convert_Messages (now : Int) (msgs : List Message) (tid tname : String) :
    (convertToChatLab now msgs tid tname).Messages =
      msgs.map (mkChatLabMessage (inferIsGroup tid)) := by
  simp [convertToChatLab, convertLoop_fst]

theorem convert_Members (now : Int) (msgs : List Message) (tid tname : String) :
    (convertToChatLab now msgs tid tname).Members =
      (firstOccurAux [] msgs).map (mkMember (inferIsGroup tid)) := by
  simpa [convertToChatLab] using convertLoop_snd (inferIsGroup tid) msgs [] []

theorem inferIsGroup_iff (tid : String) :
    inferIsGroup tid = true ↔
      (tid.data.length > 9 ∧ tid.data.drop (tid.data.length - 9) = "@chatroom".data) := by
  simp [inferIsGroup, Bool.and_eq_true, decide_eq_true_iff, beq_iff_eq]

theorem inferIsGroup_eq_false (tid : String) (h : ¬(tid.data.length > 9 ∧
    tid.data.drop (tid.data.length - 9) = "@chatroom".data)) :
    inferIsGroup tid = false := by
  rcases Bool.eq_false_or_eq_true (inferIsGroup tid) with ht | hf
  · exact absurd ((inferIsGroup_iff tid).mp ht) h
  · exact hf

/-! The claims. -/

/-- C1, counterexample to the claim as stated: the image message
`exImgBare` has neither a `path` nor an `md5` string attribute, and the
code emits the localized placeholder `"[图片]"`, not the literal
`"[image]"` the claim (and spec table) names. -/
theorem chatlab_C1_counterexample :
    exImgBare.Type = MessageType.image ∧
    getStrAttr exImgBare.Contents "path" = none ∧
    getStrAttr exImgBare.Contents "md5" = none ∧
    (mkChatLabMessage false exImgBare).Content = "[图片]" ∧
    (mkChatLabMessage false exImgBare).Content ≠ "[image]" := by decide

/-- C1, amended: for every source message whose primary type is image,
the export type is image, and the content is the `path` attribute if
present as a string, else the `md5` attribute if present as a string,
else the localized placeholder `"[图片]"` (rendered "[image]" in the
spec). -/
theorem chatlab_C1 (g : Bool) (msg : Message) (h : msg.Type = MessageType.image) :
    (mkChatLabMessage g msg).Type = ChatLabTypeImage ∧
    (mkChatLabMessage g msg).Content =
      (getStrAttr msg.Contents "path").getD
        ((getStrAttr msg.Contents "md5").getD "[图片]") := by
  rcases hp : getStrAttr msg.Contents "path" with _ | p <;>
    rcases hm : getStrAttr msg.Contents "md5" with _ | m5 <;>
      simp [mkChatLabMessage, extractTypeContent, h, hp, hm]

/-- C1, witness: an image message with `path = "/tmp/a.jpg"` exports
content `"/tmp/a.jpg"`; one with no string `path`/`md5` exports
`"[图片]"`. -/
theorem chatlab_C1_witness :
    (mkChatLabMessage false exImgPath).Type = ChatLabTypeImage ∧
    (mkChatLabMessage false exImgPath).Content = "/tmp/a.jpg" ∧
    (mkChatLabMessage false exImgBare).Content = "[图片]" :=
  ⟨(chatlab_C1 false exImgPath rfl).1,
   ((chatlab_C1 false exImgPath rfl).2).trans (by decide),
   ((chatlab_C1 false exImgBare rfl).2).trans (by decide)⟩

/-- C2: a conversation identifier whose trailing 9 characters are
`"@chatroom"` and which is strictly longer than 9 characters yields
metadata kind `"group"` with `groupId` the full identifier; any other
identifier yields `"private"` with empty `groupId`. -/
theorem chatlab_C2 (now : Int) (msgs : List Message) (tid tname : String) :
    ((convertToChatLab now msgs tid tname).Meta.Type =
      if tid.data.length > 9 ∧ tid.data.drop (tid.data.length - 9) = "@chatroom".data
      then "group" else "private") ∧
    ((convertToChatLab now msgs tid tname).Meta.GroupID =
      if tid.data.length > 9 ∧ tid.data.drop (tid.data.length - 9) = "@chatroom".data
      then tid else "") := by
  by_cases h : tid.data.length > 9 ∧ tid.data.drop (tid.data.length - 9) = "@chatroom".data
  · have hg : inferIsGroup tid = true := (inferIsGroup_iff tid).mpr h
    rw [if_pos h, if_pos h]
    simp [convertToChatLab, hg]
  · have hg : inferIsGroup tid = false := inferIsGroup_eq_false tid h
    rw [if_neg h, if_neg h]
    simp [convertToChatLab, hg]

/-- C3: the output message list has the same length as the input, and is
exactly the input list mapped element-wise (in order) through the
per-message conversion — no sorting, filtering or deduplication. -/
theorem chatlab_C3 (now : Int) (msgs : List Message) (tid tname : String) :
    (convertToChatLab now msgs tid tname).Messages.length = msgs.length ∧
    (convertToChatLab now msgs tid tname).Messages =
      msgs.map (mkChatLabMessage (inferIsGroup tid)) := by
  refine ⟨?_, convert_Messages now msgs tid tname⟩
  rw [convert_Messages]
  simp

/-- C4: the roster has exactly one member per distinct sender appearing
in the input (no duplicates, no extras), and each member's fields are
those built from the first message by that sender (`List.find?` returns
the first match), so later messages never mutate the entry. -/
theorem chatlab_C4 (now : Int) (msgs : List Message) (tid tname : String) :
    (((convertToChatLab now msgs tid tname).Members.map (fun m => m.PlatformID)).Nodup) ∧
    (∀ s, s ∈ (convertToChatLab now msgs tid tname).Members.map (fun m => m.PlatformID) ↔
      s ∈ msgs.map (fun m => m.Sender)) ∧
    (∀ mem, mem ∈ (convertToChatLab now msgs tid tname).Members →
      ∃ m, msgs.find? (fun x => x.Sender == mem.PlatformID) = some m ∧
        mem = mkMember (inferIsGroup tid) m) := by
  rw [convert_Members]
  have hmap : ((firstOccurAux [] msgs).map (mkMember (inferIsGroup tid))).map
      (fun m => m.PlatformID) = (firstOccurAux [] msgs).map (fun m => m.Sender) := by
    simp [List.map_map, Function.comp, mkMember_PlatformID]
  refine ⟨?_, ?_, ?_⟩
  · rw [hmap]; exact nodup_sender_firstOccurAux msgs []
  · intro s
    rw [hmap, mem_sender_firstOccurAux]
    simp
  · intro mem hmem
    rcases List.mem_map.mp hmem with ⟨m0, hm0, rfl⟩
    refine ⟨m0, ?_, rfl⟩
    rw [mkMember_PlatformID]
    exact find?_firstOccurAux msgs [] m0 hm0

/-- C4, witness: on two messages by the same sender `"w"`, the roster
entry is the member built from the first of them. -/
theorem chatlab_C4_witness :
    ∃ m, [exTextNamed, exTextSelfEmpty].find?
        (fun x => x.Sender == (mkMember false exTextNamed).PlatformID) = some m ∧
      mkMember false exTextNamed = mkMember (inferIsGroup "t") m :=
  (chatlab_C4 0 [exTextNamed, exTextSelfEmpty] "t" "n").2.2
    (mkMember false exTextNamed) (by decide)

/-- C5, counterexample to the claim as stated: `exTextSelfEmpty` is
self-authored with an empty display name, and its export record does
carry `"我"`, but its roster entry (the entry for its sender `"w"`) was
created from the earlier message `exTextNamed` and carries `"Alice"`,
not the first-person label — the roster clause of the claim fails. -/
theorem chatlab_C5_counterexample :
    exTextSelfEmpty.IsSelf = true ∧ exTextSelfEmpty.SenderName = "" ∧
    (convertToChatLab 0 [exTextNamed, exTextSelfEmpty] "t" "n").Messages.map
      (fun m => m.AccountName) = ["Alice", "我"] ∧
    (convertToChatLab 0 [exTextNamed, exTextSelfEmpty] "t" "n").Members =
      [{ PlatformID := "w", AccountName := "Alice", GroupNickname := "",
         Aliases := [], Avatar := "" }] := by decide

/-- C5, amended: every self-authored message with an empty display name
gets the first-person label `"我"` as the account name of its export
record (so the label recurs for every such message); its roster entry
also carries the label provided the message is its sender's first
occurrence (first-seen-wins). -/
theorem chatlab_C5 (now : Int) (msgs : List Message) (tid tname : String)
    (i : Nat) (h : i < msgs.length)
    (hself : (msgs.get ⟨i, h⟩).IsSelf = true)
    (hname : (msgs.get ⟨i, h⟩).SenderName = "") :
    ∃ cm, (convertToChatLab now msgs tid tname).Messages[i]? = some cm ∧
      cm.AccountName = "我" ∧
      (msgs.find? (fun x => x.Sender == (msgs.get ⟨i, h⟩).Sender) =
          some (msgs.get ⟨i, h⟩) →
        ∃ mem, mem ∈ (convertToChatLab now msgs tid tname).Members ∧
          mem.PlatformID = (msgs.get ⟨i, h⟩).Sender ∧ mem.AccountName = "我") := by
  refine ⟨mkChatLabMessage (inferIsGroup tid) (msgs.get ⟨i, h⟩), ?_, ?_, ?_⟩
  · rw [convert_Messages, List.getElem?_map, List.getElem?_eq_getElem h]
    rfl
  · simp [mkChatLabMessage, resolveSenderName, hself, hname]
    intro hc
    exact absurd hname (hc hself)
  · intro hfind
    have hs : (msgs.get ⟨i, h⟩).Sender ∈ msgs.map (fun m => m.Sender) :=
      List.mem_map_of_mem _ (msgs.get_mem i h)
    rw [convert_Members]
    have hmem : (msgs.get ⟨i, h⟩).Sender ∈
        (firstOccurAux [] msgs).map (fun m => m.Sender) :=
      (mem_sender_firstOccurAux msgs [] _).mpr ⟨hs, by simp⟩
    rcases List.mem_map.mp hmem with ⟨m0, hm0, hsend⟩
    refine ⟨mkMember (inferIsGroup tid) m0, List.mem_map_of_mem _ hm0, ?_, ?_⟩
    · rw [mkMember_PlatformID]; exact hsend
    · have hf0 := find?_firstOccurAux msgs [] m0 hm0
      rw [hsend] at hf0
      rw [hfind] at hf0
      have hm0eq : msgs.get ⟨i, h⟩ = m0 := Option.some.inj hf0
      rw [← hm0eq]
      simp [mkMember, resolveSenderName, hself, hname]
      intro hc
      exact absurd hname (hc hself)

/-- C5, witness: the sole message is self-authored with an empty name;
both its export record and its roster entry carry `"我"`. -/
theorem chatlab_C5_witness :
    ∃ cm, (convertToChatLab 0 [exTextSelfEmpty] "t" "n").Messages[0]? = some cm ∧
      cm.AccountName = "我" ∧
      ∃ mem, mem ∈ (convertToChatLab 0 [exTextSelfEmpty] "t" "n").Members ∧
        mem.PlatformID = "w" ∧ mem.AccountName = "我" := by
  rcases chatlab_C5 0 [exTextSelfEmpty] "t" "n" 0 (by decide) (by decide) (by decide)
    with ⟨cm, h1, h2, h3⟩
  exact ⟨cm, h1, h2, h3 (by decide)⟩

/-- C6, counterexample to the claim as stated: on a two-sender input,
the canonical run and the run that drains the member map in the
opposite iteration order are both possible outputs of the code (Go hash
map `range` order is unspecified), agree on the messages, but differ on
the member list — "byte-identical member content" fails. -/
theorem chatlab_C6_counterexample :
    ChatLabRun 0 exTwoSenders "t" "n" (convertToChatLab 0 exTwoSenders "t" "n") ∧
    ChatLabRun 0 exTwoSenders "t" "n" exTwoSendersAlt ∧
    exTwoSendersAlt.Messages = (convertToChatLab 0 exTwoSenders "t" "n").Messages ∧
    exTwoSendersAlt.Members ≠ (convertToChatLab 0 exTwoSenders "t" "n").Members := by
  refine ⟨⟨rfl, rfl, rfl, List.Perm.refl _⟩,
    ⟨rfl, rfl, rfl, List.reverse_perm _⟩, rfl, by decide⟩

/-- C6, amended: any two runs on identical input (with possibly
different export instants) produce identical metadata, byte-identical
message lists, identical header version and generator, and member
rosters equal up to permutation (order may vary with map iteration). -/
theorem chatlab_C6 (now now2 : Int) (msgs : List Message) (tid tname : String)
    (r1 r2 : ChatLab)
    (h1 : ChatLabRun now msgs tid tname r1)
    (h2 : ChatLabRun now2 msgs tid tname r2) :
    r1.Meta = r2.Meta ∧ r1.Messages = r2.Messages ∧
    List.Perm r1.Members r2.Members ∧
    r1.ChatLab.Version = r2.ChatLab.Version ∧
    r1.ChatLab.Generator = r2.ChatLab.Generator := by
  obtain ⟨ha1, hm1, hs1, hp1⟩ := h1
  obtain ⟨ha2, hm2, hs2, hp2⟩ := h2
  refine ⟨hm1.trans hm2.symm, hs1.trans hs2.symm, hp1.trans hp2.symm, ?_, ?_⟩
  · rw [ha1, ha2]; rfl
  · rw [ha1, ha2]; rfl


/-- C6, witness: the canonical run and the reversed-roster run of the
two-sender example have equal message lists and permutation-equal
rosters. -/
theorem chatlab_C6_witness :
    (convertToChatLab 0 exTwoSenders "t" "n").Messages = exTwoSendersAlt.Messages ∧
    List.Perm (convertToChatLab 0 exTwoSenders "t" "n").Members exTwoSendersAlt.Members := by
  have h := chatlab_C6 0 0 exTwoSenders "t" "n"
    (convertToChatLab 0 exTwoSenders "t" "n") exTwoSendersAlt
    ⟨rfl, rfl, rfl, List.Perm.refl _⟩ ⟨rfl, rfl, rfl, List.reverse_perm _⟩
  exact ⟨h.2.1, h.2.2.1⟩

/-- C7: a share message with sub-type link (or its second variant)
exports type link with content the `url` string attribute when present
and the original content otherwise; a share message whose sub-type
matches no table row exports type share with content unchanged. -/
theorem chatlab_C7 (msg : Message) (h : msg.Type = MessageType.share) :
    ((msg.SubType = MessageSubType.link ∨ msg.SubType = MessageSubType.link2) →
      extractTypeContent msg =
        (ChatLabTypeLink, (getStrAttr msg.Contents "url").getD msg.Content)) ∧
    (∀ n, msg.SubType = MessageSubType.unknown n →
      extractTypeContent msg = (ChatLabTypeShare, msg.Content)) := by
  constructor
  · rintro (hs | hs) <;> simp [extractTypeContent, h, hs]
  · intro n hs
    simp [extractTypeContent, h, hs]

/-- C7, witness: a share/link message with `url = "https://x.test"`
yields `(link, "https://x.test")`; a share message with an unmatched
sub-type yields `(share, original content)`. -/
theorem chatlab_C7_witness :
    extractTypeContent exShareLink = (ChatLabTypeLink, "https://x.test") ∧
    extractTypeContent exShareUnknown = (ChatLabTypeShare, "body") :=
  ⟨((chatlab_C7 exShareLink rfl).1 (Or.inl rfl)).trans (by decide),
   ((chatlab_C7 exShareUnknown rfl).2 77 rfl).trans (by decide)⟩

/-- C8: extraction is a total function (every message yields some
type/content pair), and an unrecognized primary type maps to the
"other" code with the original content preserved. -/
theorem chatlab_C8 (msg : Message) :
    (∃ t c, extractTypeContent msg = (t, c)) ∧
    (∀ n, msg.Type = MessageType.unknown n →
      extractTypeContent msg = (ChatLabTypeOther, msg.Content)) := by
  refine ⟨⟨(extractTypeContent msg).1, (extractTypeContent msg).2, rfl⟩, ?_⟩
  intro n h
  simp [extractTypeContent, h]

/-- C8, witness: a message with unrecognized primary type code 1234
maps to the "other" code 99 with its content `"raw"` preserved. -/
theorem chatlab_C8_witness :
    extractTypeContent exUnknownType = (ChatLabTypeOther, "raw") :=
  ((chatlab_C8 exUnknownType).2 1234 rfl).trans (by decide)

/-- C9: in a group conversation every export message's group nickname
equals its account name; in a private conversation it is empty. -/
theorem chatlab_C9 (now : Int) (msgs : List Message) (tid tname : String)
    (cm : ChatLabMessage)
    (h : cm ∈ (convertToChatLab now msgs tid tname).Messages) :
    cm.GroupNickname =
      if (convertToChatLab now msgs tid tname).Meta.Type = "group"
      then cm.AccountName else "" := by
  rw [convert_Messages] at h
  rcases List.mem_map.mp h with ⟨m0, hm0, rfl⟩
  by_cases hg : inferIsGroup tid = true
  · have hty : (convertToChatLab now msgs tid tname).Meta.Type = "group" := by
      simp [convertToChatLab, hg]
    rw [if_pos hty]
    simp [mkChatLabMessage, hg]
  · have hgf : inferIsGroup tid = false := by
      rcases Bool.eq_false_or_eq_true (inferIsGroup tid) with ht | hf
      · exact absurd ht hg
      · exact hf
    have hty : (convertToChatLab now msgs tid tname).Meta.Type = "private" := by
      simp [convertToChatLab, hgf]
    rw [if_neg (by simp [hty])]
    simp [mkChatLabMessage, hgf]

/-- C9, witness: in the group conversation `"12345@chatroom"` the sole
export message's group nickname equals its account name. -/
theorem chatlab_C9_witness :
    (mkChatLabMessage true exTextNamed).GroupNickname =
      if (convertToChatLab 0 [exTextNamed] "12345@chatroom" "g").Meta.Type = "group"
      then (mkChatLabMessage true exTextNamed).AccountName else "" :=
  chatlab_C9 0 [exTextNamed] "12345@chatroom" "g"
    (mkChatLabMessage true exTextNamed) (by decide)

/-- C10: on an empty input the envelope has empty message and member
lists while the header (version `"0.0.1"`, generator `"Chatlog"`,
export instant) and the metadata (resolved name with fallback to the
conversation id, platform `"wechat"`, kind, group id) are fully
populated. -/
theorem chatlab_C10 (now : Int) (tid tname : String) :
    (convertToChatLab now [] tid tname).Messages = [] ∧
    (convertToChatLab now [] tid tname).Members = [] ∧
    (convertToChatLab now [] tid tname).ChatLab.Version = "0.0.1" ∧
    (convertToChatLab now [] tid tname).ChatLab.Generator = "Chatlog" ∧
    (convertToChatLab now [] tid tname).ChatLab.ExportedAt = now ∧
    (convertToChatLab now [] tid tname).Meta.Name =
      (if tname = "" then tid else tname) ∧
    (convertToChatLab now [] tid tname).Meta.Platform = "wechat" ∧
    (convertToChatLab now [] tid tname).Meta.Type =
      (if inferIsGroup tid then "group" else "private") ∧
    (convertToChatLab now [] tid tname).Meta.GroupID =
      (if inferIsGroup tid then tid else "") := by
  refine ⟨rfl, rfl, rfl, rfl, rfl, ?_, rfl, rfl, rfl⟩
  by_cases h : tname = ""
  · simp [convertToChatLab, h]
  · have hb : (tname == "") = false := by simp [h]
    simp [convertToChatLab, h, hb]

end Chatlog
